import Mathlib

/-!
Verification of the document extraction and structuring engine of the
comptroller budget-document repository.  The Python sources
(`src/budget_parser.py`, `src/rule_csv_parser.py`,
`src/dd1414_enhanced_scraper.py`, `src/csv_transformer.py`) are shallowly
embedded below: strings are `List Char` / `String`, regular-expression
searches are implemented as deterministic scanners that reproduce the
backtracking order of the concrete patterns used by the code, machine
integers are `Nat`/`Int`, floating point amounts are modelled with `Rat`
(only sign and definedness of amounts are at stake in the claims, and
those are unaffected by rounding), and Python exceptions are modelled
with `Option`.
-/

namespace Comptroller

set_option maxRecDepth 80000

/-- Python `\s` / `str.strip()` whitespace set: space, tab, newline,
carriage return, vertical tab, form feed. -/
def isPySpace (c : Char) : Bool :=
  c = ' ' ∨ c = '\t' ∨ c = '\n' ∨ c = '\x0d' ∨ c = '\x0b' ∨ c = '\x0c'

/-- Python word character (`\w`): ASCII letter, digit or underscore
(sufficient for the ASCII documents handled here). -/
def isWordChar (c : Char) : Bool :=
  c.isAlphanum ∨ c = '_'

/-- `str.strip()` on a character list. -/
def stripChars (cs : List Char) : List Char :=
  ((cs.dropWhile isPySpace).reverse.dropWhile isPySpace).reverse

/-- `str.strip()` on a string. -/
def pyStrip (s : String) : String :=
  String.mk (stripChars s.data)

/-- ASCII `str.upper()`. -/
def asciiUpperChar (c : Char) : Char :=
  if 'a' ≤ c ∧ c ≤ 'z' then Char.ofNat (c.toNat - 32) else c

/-- ASCII `str.upper()` on a string. -/
def asciiUpper (s : String) : String :=
  String.mk (s.data.map asciiUpperChar)

/-- ASCII `str.lower()` on a character list. -/
def lowerChars (cs : List Char) : List Char :=
  cs.map Char.toLower

/-- Case-sensitive substring test (`pat in s` in Python). -/
def containsSubChars (pat : List Char) : List Char → Bool
  | [] => pat.isEmpty
  | c :: cs => pat.isPrefixOf (c :: cs) || containsSubChars pat cs

/-- Case-sensitive substring test on strings. -/
def containsSub (pat s : String) : Bool :=
  containsSubChars pat.data s.data

/-- Case-insensitive literal match: consumes `pat` (given in lower case)
from the front of `cs`, returning the rest. -/
def ciDrop (pat : List Char) (cs : List Char) : Option (List Char) :=
  match pat, cs with
  | [], rest => some rest
  | _ :: _, [] => none
  | p :: ps, c :: cs' => if c.toLower = p.toLower then ciDrop ps cs' else none

/-- Case-insensitive literal match keeping the original matched span. -/
def ciTake (pat : List Char) (cs : List Char) : Option (List Char × List Char) :=
  (ciDrop pat cs).map (fun rest => (cs.take pat.length, rest))

/-- Value of a digit run (`int(...)` on digits). -/
def digitsToNat (cs : List Char) : Nat :=
  cs.foldl (fun acc c => 10 * acc + (c.toNat - 48)) 0

/-- `int(amt.replace(',', '').replace('-', ''))` and the variant that also
strips `'+'`: digits of the string interpreted in base ten. -/
def intOfAmountChars (cs : List Char) : Nat :=
  digitsToNat (cs.filter Char.isDigit)

/-- First position (as a suffix) where a matcher succeeds: `re.search`. -/
def firstMatch {α : Type} (f : List Char → Option α) : List Char → Option α
  | [] => f []
  | c :: cs =>
    match f (c :: cs) with
    | some r => some r
    | none => firstMatch f cs

/-- `re.search` keeping the start offset of the match. -/
def firstMatchPos {α : Type} (f : List Char → Option α) : List Char → Nat → Option (α × Nat)
  | [], p => (f []).map (fun r => (r, p))
  | c :: cs, p =>
    match f (c :: cs) with
    | some r => some (r, p)
    | none => firstMatchPos f cs (p + 1)

/-- `re.finditer`: all non-overlapping matches, scanning left to right.
`f` returns the match payload together with the number of characters it
consumed (always at least one for the patterns used here); the payload is
paired with the end offset of the match.  The fuel is the length of the
text, which suffices because every step consumes at least one character. -/
def allMatches {α : Type} (f : List Char → Option (α × Nat)) :
    Nat → List Char → Nat → List (α × Nat)
  | 0, _, _ => []
  | _ + 1, [], _ => []
  | fu + 1, c :: cs, off =>
    match f (c :: cs) with
    | some (r, len) =>
        let step := max len 1
        (r, off + step) :: allMatches f fu (List.drop (step - 1) cs) (off + step)
    | none => allMatches f fu cs (off + 1)

/-- Python `str.replace(pat, '')` (left-to-right, non-overlapping),
with fuel equal to the length of the text. -/
def eraseAllSub (pat : List Char) : Nat → List Char → List Char
  | 0, cs => cs
  | _ + 1, [] => []
  | fu + 1, c :: cs =>
    if pat.isPrefixOf (c :: cs) ∧ pat ≠ [] then
      eraseAllSub pat fu (List.drop (pat.length - 1) cs)
    else
      c :: eraseAllSub pat fu cs

/-- `s.split()`: split on whitespace runs, dropping empties.  Fuel is the
length of the text; every step consumes at least one character. -/
def pySplitWs : Nat → List Char → List (List Char)
  | 0, _ => []
  | _ + 1, [] => []
  | fu + 1, c :: cs =>
    if isPySpace c then pySplitWs fu cs
    else
      let word := (c :: cs).takeWhile (fun d => ¬ isPySpace d)
      word :: pySplitWs fu (List.drop (word.length - 1) cs)

/-- `' '.join(parts)` with single spaces. -/
def joinSpace : List (List Char) → List Char
  | [] => []
  | [w] => w
  | w :: ws => w ++ ' ' :: joinSpace ws

/-- `' '.join(s.split())` on a string. -/
def pyNormWs (s : String) : String :=
  String.mk (joinSpace (pySplitWs s.data.length s.data))

/-!
## Amount Normalizer

`DD1414EnhancedScraper.parse_amount` (src/dd1414_enhanced_scraper.py,
lines 287-313).  `float` results are modelled with `Rat`; the claims about
this function concern only sign and definedness, which rounding does not
affect.  The Python `try`/`except` is the identity here: no operation in
the body can raise on a string argument, and the final fallthrough
returns `None`.
-/

/-- Characters removed by `re.sub(r'[,$\s]', '', amount_str)`. -/
def isAmountJunk (c : Char) : Bool :=
  c = ',' ∨ c = '$' ∨ isPySpace c

/-- The `million`/`billion`/`thousand` multiplier chosen by the
`elif` chain of `parse_amount`, from the lower-cased input. -/
def scaleMultiplier (low : List Char) : Nat :=
  if containsSubChars "million".data low then 1000000
  else if containsSubChars "billion".data low then 1000000000
  else if containsSubChars "thousand".data low then 1000
  else 1

/-- The cleaned string after the scale word (if any) is removed by
`cleaned.replace(word, '')`, mirroring the same `elif` chain. -/
def scaleCleaned (low cleaned : List Char) : List Char :=
  if containsSubChars "million".data low then eraseAllSub "million".data cleaned.length cleaned
  else if containsSubChars "billion".data low then eraseAllSub "billion".data cleaned.length cleaned
  else if containsSubChars "thousand".data low then eraseAllSub "thousand".data cleaned.length cleaned
  else cleaned

/-- `re.search(r'(\d+\.?\d*)', cleaned)`: the first maximal digit run, an
optional decimal point, and a trailing digit run.  The captured number is
returned as a mantissa together with the number of fractional digits, so
that its value is `mantissa / 10 ^ fracLen`. -/
def numberSearch (cs : List Char) : Option (Nat × Nat) :=
  match cs.dropWhile (fun c => !c.isDigit) with
  | [] => none
  | c :: rest =>
    let ipart := (c :: rest).takeWhile Char.isDigit
    let rest2 := (c :: rest).drop ipart.length
    let fpart :=
      match rest2 with
      | '.' :: r => r.takeWhile Char.isDigit
      | _ => []
    some (digitsToNat ipart * 10 ^ fpart.length + digitsToNat fpart, fpart.length)

/-- `DD1414EnhancedScraper.parse_amount`.  The result
`float(number) * multiplier` is represented exactly as the rational
`mantissa * multiplier / 10 ^ fracLen`. -/
def parse_amount (amount_str : String) : Option Rat :=
  let cs := amount_str.data
  let cleaned := cs.filter (fun c => !isAmountJunk c)
  let low := lowerChars cs
  (numberSearch (scaleCleaned low cleaned)).map
    (fun p => mkRat ((p.1 * scaleMultiplier low : Nat) : Int) (10 ^ p.2))

theorem eraseAllSub_subset (pat : List Char) :
    ∀ (fu : Nat) (cs : List Char), eraseAllSub pat fu cs ⊆ cs := by
  intro fu
  induction fu with
  | zero => intro cs; simp [eraseAllSub]
  | succ n ih =>
    intro cs
    cases cs with
    | nil => simp [eraseAllSub]
    | cons c rest =>
      by_cases h : pat.isPrefixOf (c :: rest) ∧ pat ≠ []
      · simp only [eraseAllSub, if_pos h]
        intro x hx
        exact List.mem_cons_of_mem c (List.drop_subset _ _ (ih _ hx))
      · simp only [eraseAllSub, if_neg h]
        intro x hx
        rcases List.mem_cons.mp hx with h1 | h2
        · exact h1 ▸ List.mem_cons_self _ _
        · exact List.mem_cons_of_mem c (ih _ h2)

theorem numberSearch_none_of_no_digit (cs : List Char)
    (h : ∀ c ∈ cs, c.isDigit = false) : numberSearch cs = none := by
  have hd : cs.dropWhile (fun c => !c.isDigit) = [] := by
    rw [List.dropWhile_eq_nil_iff]
    intro c hc
    simp [h c hc]
  simp [numberSearch, hd]

/-- **C4** (spec §4.4, §7(a)): `parse_amount` is a total function (it is
a Lean `def`, so it can never raise), and on any input that does not
reduce to a valid number — i.e. contains no digit, which is exactly when
`re.search(r'(\d+\.?\d*)', ...)` fails — it returns `none`, not zero and
not an exception. -/
theorem c4_invalid_returns_none (s : String)
    (h : ∀ c ∈ s.data, c.isDigit = false) : parse_amount s = none := by
  simp only [parse_amount]
  have hclean : ∀ c ∈ s.data.filter (fun c => !isAmountJunk c), c.isDigit = false := by
    intro c hc
    exact h c (List.mem_of_mem_filter hc)
  have hfin : ∀ c ∈ scaleCleaned (lowerChars s.data)
      (s.data.filter (fun c => !isAmountJunk c)), c.isDigit = false := by
    intro c hc
    unfold scaleCleaned at hc
    split at hc
    · exact hclean c (eraseAllSub_subset _ _ _ hc)
    · split at hc
      · exact hclean c (eraseAllSub_subset _ _ _ hc)
      · split at hc
        · exact hclean c (eraseAllSub_subset _ _ _ hc)
        · exact hclean c hc
  rw [numberSearch_none_of_no_digit _ hfin]
  rfl

/-- Witness for C4: the all-letter string `"abc"` contains no digit and
`parse_amount` maps it to `none`. -/
theorem c4_witness :
    (∀ c ∈ "abc".data, c.isDigit = false) ∧ parse_amount "abc" = none := by
  refine ⟨by decide, c4_invalid_returns_none "abc" (by decide)⟩

/-- **C3 counterexample**: the claim says the value returned by
`parse_amount` is negative whenever a literal `-` occurs in the matched
substring.  But `parse_amount("-1,000")` evaluates to `+1000`: the regex
`(\d+\.?\d*)` that extracts the number cannot capture a sign, so the
returned value is never negative. -/
theorem c3_counterexample :
    '-' ∈ "-1,000".data ∧ parse_amount "-1,000" = some 1000 ∧
      ¬ ((1000 : Rat) < 0) := by
  refine ⟨by decide, by decide, by norm_num⟩

/-- **C3 amended** (the code, contra spec §4.4): `parse_amount` discards
any sign information; every value it returns is non-negative, whether or
not a `-` occurs anywhere in the input.  (The "`-` anywhere" convention
appears instead in the `is_decrease` flag of the baseline scanner, which
does not feed back into the returned amount.) -/
theorem c3_amended_nonnegative (s : String) (q : Rat)
    (h : parse_amount s = some q) : 0 ≤ q := by
  simp only [parse_amount] at h
  rcases Option.map_eq_some'.mp h with ⟨p, _, hq⟩
  subst hq
  rw [Rat.mkRat_eq_div]
  positivity

/-- Witness for the amended C3: `parse_amount "5"` returns `5 ≥ 0`. -/
theorem c3_amended_witness :
    parse_amount "5" = some 5 ∧ (0 : Rat) ≤ 5 := by
  exact ⟨by decide, c3_amended_nonnegative "5" 5 (by decide)⟩

/-!
## Fiscal-year extraction

`find_fys` with `FY_REGEX` (src/rule_csv_parser.py, lines 26 and 65-73)
and the fiscal-year block of `BudgetParser.parse_reprogramming_action`
(src/budget_parser.py, lines 35-42).
-/

/-- Case-sensitive literal match, consuming the pattern. -/
def csDrop (pat cs : List Char) : Option (List Char) :=
  if pat.isPrefixOf cs then some (cs.drop pat.length) else none

/-- `\s+`: at least one whitespace character, consumed greedily (all the
patterns below follow `\s+` with a non-whitespace character, so maximal
munch is exact). -/
def wsPlus (cs : List Char) : Option (List Char) :=
  match cs with
  | [] => none
  | c :: rest => if isPySpace c then some (rest.dropWhile isPySpace) else none

/-- The two-digit-year rule shared verbatim by
`budget_parser.parse_reprogramming_action` (`if len(fy) == 2: fy = '20' + fy`)
and `rule_csv_parser.find_fys` (`if len(y1)==2: y1 = '20'+y1`). -/
def fyTo4Digit (y : String) : String :=
  if y.length = 2 then "20" ++ y else y

/-- One attempt of `FY_REGEX`, i.e. `(?:FY|Fiscal\s+Year)\s*(\d{2,4})`
followed by an optional slash-or-hyphen separator and an optional second
`(\d{2,4})` group (case-insensitive), at the start of `cs`, returning
groups 1 and 2. -/
def matchFYAt (cs : List Char) : Option (List Char × Option (List Char)) :=
  let head :=
    match ciDrop "fy".data cs with
    | some r => some r
    | none =>
      match ciDrop "fiscal".data cs with
      | some r =>
        match wsPlus r with
        | some r2 => ciDrop "year".data r2
        | none => none
      | none => none
  match head with
  | none => none
  | some rest1 =>
    let rest2 := rest1.dropWhile isPySpace
    let run := rest2.takeWhile Char.isDigit
    if run.length < 2 then none
    else
      let g1 := run.take 4
      let rest3 := rest2.drop g1.length
      let rest4 :=
        match rest3 with
        | c :: r => if c = '/' ∨ c = '-' then r else rest3
        | [] => rest3
      let g2run := rest4.takeWhile Char.isDigit
      some (g1, if 2 ≤ g2run.length then some (g2run.take 4) else none)

/-- `rule_csv_parser.find_fys`. -/
def find_fys (snippet : String) : String × String :=
  match firstMatch matchFYAt snippet.data with
  | none => ("", "")
  | some (g1, g2) =>
    let y1 := String.mk g1
    let y2 := match g2 with | some g => String.mk g | none => y1
    (fyTo4Digit y1, fyTo4Digit y2)

/-- One attempt of the case-sensitive
`(?:FY|Fiscal Year)\s*(\d{2,4})[_\-]?(\d{2,4})?` of
`parse_reprogramming_action` (only group 1 is consumed by the caller). -/
def matchBpFYAt (cs : List Char) : Option (List Char) :=
  let head :=
    match csDrop "FY".data cs with
    | some r => some r
    | none => csDrop "Fiscal Year".data cs
  match head with
  | none => none
  | some rest1 =>
    let rest2 := rest1.dropWhile isPySpace
    let run := rest2.takeWhile Char.isDigit
    if run.length < 2 then none else some (run.take 4)

/-- Fiscal-year normalization of `BudgetParser.parse_reprogramming_action`
(src/budget_parser.py lines 35-42): search
`filename + ' ' + text[:1000]`, then apply the two-digit rule, with
`'Unknown'` as the no-match fallback. -/
def bpExtractFY (text filename : String) : String :=
  let hay := filename ++ " " ++ String.mk (text.data.take 1000)
  match firstMatch matchBpFYAt hay.data with
  | none => "Unknown"
  | some g1 => fyTo4Digit (String.mk g1)

/-- Digit character for a `Fin 10`. -/
def digitChar (i : Fin 10) : Char :=
  Char.ofNat (48 + i.val)

/-- Two-digit year string built from two digits. -/
def twoDigitStr (i j : Fin 10) : String :=
  String.mk [digitChar i, digitChar j]

/-- **C1 counterexample**: the claim's century rule says two-digit values
≥ 90 map to 19xx, so normalizing "99" should give 1999; but `find_fys`
prefixes `'20'` unconditionally and yields 2099. -/
theorem c1_counterexample :
    find_fys "FY 99" = ("2099", "2099") ∧ ("2099", "2099") ≠ ("1999", "1999") := by
  exact ⟨by decide, by decide⟩

/-- **C1 amended**: the extractors normalize every two-digit fiscal year
by prefixing `'20'`, with no 1900 branch — `"07"` becomes `"2007"`, but
`"99"` becomes `"2099"`, not `"1999"`; four-digit years such as `"1995"`
are returned unchanged.  Stated for all 100 two-digit strings through
both cited extraction paths (`find_fys` and the fiscal-year block of
`parse_reprogramming_action`). -/
theorem c1_amended_two_digit_always_20xx :
    (∀ i j : Fin 10,
      find_fys ("FY " ++ twoDigitStr i j) =
        ("20" ++ twoDigitStr i j, "20" ++ twoDigitStr i j) ∧
      bpExtractFY "" ("FY " ++ twoDigitStr i j) = "20" ++ twoDigitStr i j) ∧
    find_fys "FY 1995" = ("1995", "1995") ∧
    bpExtractFY "" "FY 1995" = "1995" := by
  exact ⟨by decide, by decide, by decide⟩

/-!
## Reprogramming-action grammar

`BudgetParser.parse_reprogramming_action` (src/budget_parser.py,
lines 23-92).  The `approp_pattern` alternations are prefix-free, so the
scan below is exactly the backtracking behaviour of the Python regex.
-/

/-- Ordered category alternation of `approp_pattern`. -/
def reprogCategories : List String :=
  ["Operation and Maintenance", "Procurement", "Weapons Procurement",
   "Missile Procurement", "Other Procurement",
   "Research, Development, Test, and Evaluation", "Military Personnel",
   "Reserve Personnel"]

/-- Ordered branch alternation of `approp_pattern`. -/
def reprogBranches : List String :=
  ["Army", "Navy", "Air Force", "Marine Corps", "Defense-Wide"]

/-- First alternative (in regex order) matching case-insensitively at the
front, keeping the original span. -/
def firstAlt (alts : List String) (cs : List Char) : Option (List Char × List Char) :=
  match alts with
  | [] => none
  | a :: rest =>
    match ciTake a.data cs with
    | some r => some r
    | none => firstAlt rest cs

/-- `,?\s+`: optional comma, then at least one whitespace character. -/
def commaWsPlus (cs : List Char) : Option (List Char) :=
  match cs with
  | ',' :: rest => wsPlus rest
  | _ => wsPlus cs

/-- Exactly `n` digits (`\d{n}`, no boundary requirement afterwards). -/
def takeNDigits (n : Nat) (cs : List Char) : Option (List Char × List Char) :=
  let t := cs.take n
  if t.length = n ∧ t.all Char.isDigit then some (t, cs.drop n) else none

/-- `(?:,\d{3})*`: greedily repeated comma groups of exactly three
digits.  Returns the consumed span and the rest. -/
def commaGroups : Nat → List Char → (List Char × List Char)
  | 0, cs => ([], cs)
  | fu + 1, cs =>
    match cs with
    | ',' :: rest =>
      let ds := rest.takeWhile Char.isDigit
      if 3 ≤ ds.length then
        let (g, r) := commaGroups fu (rest.drop 3)
        (',' :: (rest.take 3 ++ g), r)
      else ([], cs)
    | _ => ([], cs)

/-- `\d{1,3}(?:,\d{3})*`: one to three digits taken greedily, then comma
groups.  When the leading digit run is longer than three, the regex
accepts three digits and no comma group can follow (the next character is
a digit), which is what this function computes. -/
def matchAmountCore (cs : List Char) : Option (List Char × List Char) :=
  let run := cs.takeWhile Char.isDigit
  if run.length = 0 then none
  else
    let d := min 3 run.length
    let rest := cs.drop d
    let (g, r) := commaGroups cs.length rest
    some (cs.take d ++ g, r)

/-- `[+\-]?\d{1,3}(?:,\d{3})*` with the sign included in the captured
group, as in group 5 of `approp_pattern`. -/
def matchSignedAmount (cs : List Char) : Option (List Char × List Char) :=
  match cs with
  | [] => none
  | c :: rest =>
    if c = '+' ∨ c = '-' then
      (matchAmountCore rest).map (fun p => (c :: p.1, p.2))
    else matchAmountCore cs

/-- The captured groups of one `approp_pattern` match. -/
structure ApGroups where
  category : List Char
  branch : List Char
  fy1 : List Char
  fy2 : List Char
  amt : List Char
deriving DecidableEq

/-- One attempt of `approp_pattern` at the start of `cs`; on success the
groups and the number of characters consumed. -/
def matchAppropAt (cs : List Char) : Option (ApGroups × Nat) := do
  let (cat, r1) ← firstAlt reprogCategories cs
  let r2 ← commaWsPlus r1
  let (br, r3) ← firstAlt reprogBranches r2
  let r4 ← commaWsPlus r3
  let (f1, r5) ← takeNDigits 2 r4
  let r6 ← match r5 with | '/' :: r => some r | _ => none
  let (f2, r7) ← takeNDigits 2 r6
  let r8 ← wsPlus r7
  let (amt, r9) ← matchSignedAmount r8
  some (⟨cat, br, f1, f2, amt⟩, cs.length - r9.length)

/-- `\s*([^\n]+)` with Python backtracking: after a maximal whitespace
run the group is the rest of the line; if the whitespace run reaches the
end of the text, the group backtracks to the last non-newline whitespace
character, if any. -/
def matchWsCapLine (cs : List Char) : Option (List Char) :=
  let w := cs.takeWhile isPySpace
  let rest := cs.drop w.length
  match rest with
  | _ :: _ => some (rest.takeWhile (fun c => !(c = '\n')))
  | [] =>
    match (w.filter (fun c => !(c = '\n'))).getLast? with
    | some c => some [c]
    | none => none

/-- One attempt of `Budget\s+Activity\s+(\d+):\s*([^\n]+)`
(case-insensitive) at the start of `cs`, returning groups 1 and 2. -/
def matchBAAt (cs : List Char) : Option (List Char × List Char) := do
  let r1 ← ciDrop "budget".data cs
  let r2 ← wsPlus r1
  let r3 ← ciDrop "activity".data r2
  let r4 ← wsPlus r3
  let ds := r4.takeWhile Char.isDigit
  if ds.length = 0 then none
  else do
    let r6 ← match r4.drop ds.length with | ':' :: r => some r | _ => none
    let title ← matchWsCapLine r6
    some (ds, title)

/-- Case-insensitive prefix test. -/
def ciStartsWith (pat : String) (cs : List Char) : Bool :=
  (ciDrop pat.data cs).isSome

/-- Continuation lines of the explanation pattern:
`(?:\n(?!stopwords)[^\n]+)*`, greedy. -/
def explCont (stops : List String) : Nat → List Char → List Char
  | 0, _ => []
  | fu + 1, cs =>
    match cs with
    | '\n' :: rest =>
      if stops.any (fun s => ciStartsWith s rest) then []
      else
        let line := rest.takeWhile (fun c => !(c = '\n'))
        if line.length = 0 then []
        else '\n' :: (line ++ explCont stops fu (rest.drop line.length))
    | _ => []

/-- One attempt of `Explanation:\s*([^\n]+(?:\n(?!stops)[^\n]+)*)`
(case-insensitive) at the start of `cs`. -/
def matchExplAt (stops : List String) (cs : List Char) : Option (List Char) :=
  match ciDrop "explanation:".data cs with
  | none => none
  | some r1 =>
    let w := r1.takeWhile isPySpace
    let rest := r1.drop w.length
    match rest with
    | _ :: _ =>
      let first := rest.takeWhile (fun c => !(c = '\n'))
      some (first ++ explCont stops rest.length (rest.drop first.length))
    | [] =>
      match (w.filter (fun c => !(c = '\n'))).getLast? with
      | some c => some [c]
      | none => none

/-- Stop words of the explanation lookahead in `budget_parser`. -/
def reprogStops : List String :=
  ["operation", "budget activity", "explanation"]

/-- One emitted line of `parse_reprogramming_action` (the Python dict of
src/budget_parser.py lines 78-90). -/
structure ReprogLine where
  fiscal_year_start : String
  fiscal_year_end : String
  appropriation_category : String
  branch : String
  budget_activity_number : String
  budget_activity_title : String
  reprogramming_amount : Int
  direction : String
  explanation : String
  file : String
  type : String
deriving DecidableEq

/-- Build one record from an `approp_pattern` match, mirroring the loop
body of `parse_reprogramming_action`. -/
def mkReprogLine (text : List Char) (filename : String) (g : ApGroups)
    (endPos : Nat) : ReprogLine :=
  let after := (text.drop endPos).take 500
  let ba := firstMatch matchBAAt after
  let baN := match ba with | some p => String.mk p.1 | none => ""
  let baT := match ba with | some p => pyStrip (String.mk p.2) | none => ""
  let expl :=
    match firstMatch (matchExplAt reprogStops) after with
    | some e => pyNormWs (pyStrip (String.mk e))
    | none => ""
  let amountN : Int := Int.ofNat (intOfAmountChars g.amt)
  let isInc : Bool := '+' ∈ g.amt ∨ ¬ '-' ∈ g.amt
  { fiscal_year_start := "20" ++ String.mk g.fy1
    fiscal_year_end := "20" ++ String.mk g.fy2
    appropriation_category := pyStrip (String.mk g.category)
    branch := pyStrip (String.mk g.branch)
    budget_activity_number := baN
    budget_activity_title := baT
    reprogramming_amount := if isInc then amountN else -amountN
    direction := if isInc then "increase" else "decrease"
    explanation := String.mk (expl.data.take 500)
    file := filename
    type := "reprogramming_action" }

/-- `BudgetParser.parse_reprogramming_action`.  (The source also computes
an unused `fiscal_year` variable from the filename and leading text —
see `bpExtractFY` — which does not flow into the emitted records.) -/
def parse_reprogramming_action (text filename : String) : List ReprogLine :=
  (allMatches matchAppropAt (text.data.length + 1) text.data 0).map
    (fun p => mkReprogLine text.data filename p.1 p.2)

/-- The spec's example scenario input (§8). -/
def c5ExampleText : String :=
  "ARMY INCREASE\nOperation and Maintenance, Army, 05/05 +21\nBudget Activity 1: Operating Forces\nExplanation: Transfer for readiness."

set_option maxRecDepth 10000 in
/-- **C5** (spec §8 example scenario): parsing the example text with the
reprogramming-action grammar yields exactly one record, with
branch "Army", category "Operation and Maintenance",
fiscal_year_start "2005", budget_activity_number "1",
reprogramming_amount +21 and direction "increase". -/
theorem c5_example_scenario :
    parse_reprogramming_action c5ExampleText "test.pdf" =
      [{ fiscal_year_start := "2005", fiscal_year_end := "2005",
         appropriation_category := "Operation and Maintenance", branch := "Army",
         budget_activity_number := "1", budget_activity_title := "Operating Forces",
         reprogramming_amount := 21, direction := "increase",
         explanation := "Transfer for readiness.", file := "test.pdf",
         type := "reprogramming_action" }] := by
  decide

/-!
## Baseline-table grammar

`BudgetParser.parse_dd1414_baseline` (src/budget_parser.py, lines
94-194): a stateful left-to-right line scan with `current_branch` /
`current_category` / budget-activity pointers.
-/

/-- One attempt of the filename pattern `FY[_\s]*(\d{4})`
(case-sensitive). -/
def matchBLFYAt (cs : List Char) : Option (List Char) := do
  let r1 ← csDrop "FY".data cs
  let r2 := r1.dropWhile (fun c => c = '_' ∨ isPySpace c)
  (takeNDigits 4 r2).map (fun p => p.1)

/-- All suffixes starting just after each successive `':'` of the text,
in order: the candidate resting points of the lazy `.*?:` (the scanned
texts are single lines, so the dot's newline exclusion is vacuous). -/
def afterColons : Nat → List Char → List (List Char)
  | 0, _ => []
  | _ + 1, [] => []
  | fu + 1, c :: rest =>
    if c = ':' then rest :: afterColons fu rest else afterColons fu rest

/-- Candidates for a lazy `.*?word` (case-insensitive): for each
occurrence of `word`, shortest gap first, the consumed length and the
rest.  Gap characters may not include a newline (`.` semantics). -/
def lazyThrough (word : List Char) : Nat → List Char → List (Nat × List Char)
  | 0, _ => []
  | _ + 1, [] => []
  | fu + 1, c :: rest =>
    let here :=
      match ciDrop word (c :: rest) with
      | some r => [(word.length, r)]
      | none => []
    here ++
      (if c = '\n' then []
       else (lazyThrough word fu rest).map (fun p => (p.1 + 1, p.2)))

/-- Group-1 alternation of the baseline `Appropriation` header pattern,
in regex order, with the two lazy `Research.*?…` alternatives expanded
shortest-gap-first: each candidate is the captured span and the rest. -/
def blG1Candidates (s : List Char) : List (List Char × List Char) :=
  let lit := fun (w : String) =>
    match ciTake w.data s with
    | some p => [p]
    | none => []
  lit "Military Personnel" ++ lit "Operation and Maintenance" ++ lit "Procurement" ++
    (match ciTake "research".data s with
     | some (rs, rr) =>
       (lazyThrough "development".data rr.length rr).map
         (fun p => (rs ++ rr.take p.1, p.2))
     | none => []) ++
    (match ciTake "research".data s with
     | some (rs, rr) =>
       (lazyThrough "evaluation".data rr.length rr).map
         (fun p => (rs ++ rr.take p.1, p.2))
     | none => [])

/-- `,?\s*`: optional comma then any whitespace (deterministic: the
following branch alternatives start with letters). -/
def commaWsStar (cs : List Char) : List Char :=
  match cs with
  | ',' :: rest => rest.dropWhile isPySpace
  | _ => cs.dropWhile isPySpace

/-- Group-2 alternation of the baseline header pattern. -/
def blBranches : List String :=
  ["Army", "Navy", "Air Force", "Marine", "Defense"]

/-- One attempt of the baseline `Appropriation.*?:\s*(categories),?\s*(branches)`
pattern (case-insensitive) at the start of `cs`, returning groups 1
and 2.  The enumeration order (successive colons, then the group-1
alternation with lazy expansions, then the branch part) reproduces the
regex backtracking order. -/
def matchBLAppropAt (cs : List Char) : Option (List Char × List Char) :=
  match ciDrop "appropriation".data cs with
  | none => none
  | some r1 =>
    (afterColons r1.length r1).findSome? (fun afterColon =>
      let s := afterColon.dropWhile isPySpace
      (blG1Candidates s).findSome? (fun g1p =>
        let r2 := commaWsStar g1p.2
        match firstAlt blBranches r2 with
        | some (g2, _) => some (g1p.1, g2)
        | none => none))

/-- Does `\s+\d{1,3},\d{3}` match at the front of `cs`?  (The first
alternative of the terminator of the baseline Budget Activity
pattern.) -/
def wsAmountAhead (cs : List Char) : Bool :=
  match wsPlus cs with
  | none => false
  | some r =>
    let run := r.takeWhile Char.isDigit
    decide (1 ≤ run.length ∧ run.length ≤ 3) &&
      (match r.drop run.length with
       | ',' :: rr => decide (3 ≤ (rr.takeWhile Char.isDigit).length)
       | _ => false)

/-- One attempt of the baseline
`Budget Activity\s+(\d+):\s*(.+?)(?:\s+\d{1,3},\d{3}|$)` pattern
(case-insensitive; note the literal single space in `Budget Activity`)
at the start of `cs`, returning groups 1 and 2.  `\s*` is tried longest
first and the lazy `(.+?)` shortest first, as the regex engine does;
`$` is end-of-line (the scanned texts are single lines). -/
def matchBLBAAt (cs : List Char) : Option (List Char × List Char) := do
  let r1 ← ciDrop "budget activity".data cs
  let r2 ← wsPlus r1
  let ds := r2.takeWhile Char.isDigit
  if ds.length = 0 then none
  else do
    let r3 ← match r2.drop ds.length with | ':' :: r => some r | _ => none
    let wmax := (r3.takeWhile isPySpace).length
    ((List.range (wmax + 1)).reverse).findSome? (fun j =>
      let s := r3.drop j
      (List.range s.length).findSome? (fun k0 =>
        let after := s.drop (k0 + 1)
        if wsAmountAhead after ∨ after.isEmpty then some (ds, s.take (k0 + 1))
        else none))

/-- One attempt of `-?\d{1,3}(?:,\d{3})+` (the baseline amount pattern,
which requires at least one comma group): matched span and consumed
length. -/
def matchBLAmountAt (cs : List Char) : Option (List Char × Nat) :=
  let core := fun (s : List Char) (sign : List Char) =>
    let run := s.takeWhile Char.isDigit
    if 1 ≤ run.length ∧ run.length ≤ 3 then
      match s.drop run.length with
      | ',' :: rest =>
        if 3 ≤ (rest.takeWhile Char.isDigit).length then
          let g := (commaGroups s.length (s.drop run.length)).1
          some (sign ++ run ++ g, sign.length + run.length + g.length)
        else none
      | _ => none
    else none
  match cs with
  | '-' :: rest => core rest ['-']
  | _ => core cs []

/-- `re.findall(r'-?\d{1,3}(?:,\d{3})+', line)`. -/
def findAllBLAmounts (cs : List Char) : List (List Char) :=
  (allMatches matchBLAmountAt (cs.length + 1) cs 0).map (fun p => p.1)

/-- Does `\s+-?\d{1,3}(?:,\d{3})+` (the split pattern of the data-line
scan) match at the front of `cs`? -/
def wsSignedAmountAhead (cs : List Char) : Bool :=
  match wsPlus cs with
  | none => false
  | some r =>
    let body := match r with | '-' :: rr => rr | _ => r
    let run := body.takeWhile Char.isDigit
    decide (1 ≤ run.length ∧ run.length ≤ 3) &&
      (match body.drop run.length with
       | ',' :: rr => decide (3 ≤ (rr.takeWhile Char.isDigit).length)
       | _ => false)

/-- `re.split(r'\s+-?\d{1,3}(?:,\d{3})+', line)[0]`: the prefix of the
line before the first occurrence of the split pattern (the whole line if
it never occurs). -/
def blTextPart (cs : List Char) : List Char :=
  match firstMatchPos (fun s => if wsSignedAmountAhead s then some () else none) cs 0 with
  | some (_, p) => cs.take p
  | none => cs

/-- One emitted line of `parse_dd1414_baseline` (the Python dict of
src/budget_parser.py lines 180-192). -/
structure BaselineLine where
  fiscal_year : String
  appropriation_category : String
  branch : String
  budget_activity_number : String
  budget_activity_title : String
  program_element : String
  budget_amount : Int
  is_decrease : Bool
  raw_amounts : List String
  file : String
  type : String
deriving DecidableEq

/-- The scan state of `parse_dd1414_baseline`: the `current_*`
pointers. -/
structure BLState where
  cc : Option String
  cb : Option String
  cban : Option String
  cba : Option String
deriving DecidableEq

/-- Initial scan state: all pointers `None`. -/
def initBLState : BLState := ⟨none, none, none, none⟩

/-- Python truthiness of an optional string. -/
def pyTruthy (o : Option String) : Bool :=
  match o with
  | some s => s ≠ ""
  | none => decide False

/-- One iteration of the line loop of `parse_dd1414_baseline`: given the
current pointers and a raw line, the updated pointers and the record the
line emits, if any. -/
def blStep (fy file : String) (st : BLState) (rawLine : String) :
    BLState × Option BaselineLine :=
  let line := pyStrip rawLine
  if line.length < 10 then (st, none)
  else
    match firstMatch matchBLAppropAt line.data with
    | some (g1, g2) =>
      let c0 := String.mk g1
      let b0 := String.mk g2
      let c1 := if containsSub "Research" c0 then
          "Research, Development, Test, and Evaluation" else c0
      let b1 := if containsSub "Marine" b0 then "Marines" else b0
      ({ st with cc := some c1, cb := some b1 }, none)
    | none =>
      match firstMatch matchBLBAAt line.data with
      | some (n, t) =>
        ({ st with cban := some (String.mk n), cba := some (pyStrip (String.mk t)) }, none)
      | none =>
        if containsSub "Subtotal" line ∨ containsSub "SUBTOTAL" line then (st, none)
        else
          let amounts := findAllBLAmounts line.data
          if amounts.length ≠ 0 ∧ pyTruthy st.cc ∧ pyTruthy st.cb then
            let textPart := pyStrip (String.mk (blTextPart line.data))
            if textPart.length < 5 then (st, none)
            else if asciiUpper textPart = textPart ∧ textPart.length < 15 then (st, none)
            else
              let parsed := amounts.map intOfAmountChars
              let mainAmount := parsed.foldl max 0
              if mainAmount < 1000 then (st, none)
              else
                (st, some
                  { fiscal_year := fy
                    appropriation_category := st.cc.getD ""
                    branch := st.cb.getD ""
                    budget_activity_number := st.cban.getD ""
                    budget_activity_title := st.cba.getD ""
                    program_element := String.mk (textPart.data.take 100)
                    budget_amount := Int.ofNat mainAmount
                    is_decrease := amounts.any (fun a => '-' ∈ a)
                    raw_amounts := (amounts.take 3).map String.mk
                    file := file
                    type := "baseline" })
          else (st, none)

/-- The line loop of `parse_dd1414_baseline`, threading the scan
state. -/
def blRun (fy file : String) : BLState → List String → List BaselineLine
  | _, [] => []
  | st, l :: ls =>
    match blStep fy file st l with
    | (st', some r) => r :: blRun fy file st' ls
    | (st', none) => blRun fy file st' ls

/-- `text.split('\n')` on a character list: split at every newline,
keeping empty pieces (Python semantics). -/
def splitLines : List Char → List (List Char)
  | [] => [[]]
  | c :: rest =>
    if c = '\n' then [] :: splitLines rest
    else
      match splitLines rest with
      | w :: ws => (c :: w) :: ws
      | [] => [[c]]

/-- `BudgetParser.parse_dd1414_baseline`. -/
def parse_dd1414_baseline (text filename : String) : List BaselineLine :=
  let fy :=
    match firstMatch matchBLFYAt filename.data with
    | some d => String.mk d
    | none => "Unknown"
  blRun fy filename initBLState ((splitLines text.data).map String.mk)

/-!
## Document-kind dispatch

`BudgetParser.process_all_documents` (src/budget_parser.py, lines
196-231): per-document parser selection.  The two grammars emit
different record shapes, collected in one sum type.
-/

/-- A parsed budget line from either grammar. -/
inductive BudgetLine where
  | baseline (b : BaselineLine)
  | reprog (r : ReprogLine)
deriving DecidableEq

/-- The auto-detection branch (src/budget_parser.py lines 224-229):
`lines_baseline if len(lines_baseline) > len(lines_reprog) else
lines_reprog`. -/
def autoDetectLines (text filename : String) : List BudgetLine :=
  let lb := (parse_dd1414_baseline text filename).map BudgetLine.baseline
  let lr := (parse_reprogramming_action text filename).map BudgetLine.reprog
  if lr.length < lb.length then lb else lr

/-- Per-document dispatch of `process_all_documents` (lines 217-229):
filename conventions first, otherwise both grammars are run. -/
def processDocument (text filename : String) : List BudgetLine :=
  if containsSub "DD_1414" filename ∨ containsSub "Base_for_Reprogramming" filename then
    (parse_dd1414_baseline text filename).map BudgetLine.baseline
  else if containsSub "_IR_" filename ∨ containsSub "_PA_" filename then
    (parse_reprogramming_action text filename).map BudgetLine.reprog
  else autoDetectLines text filename

/-- Every record emitted by one step of the baseline scan has its amount
at or above the 1000 floor and non-empty category and branch pointers
(the emission guard requires truthy `current_category` and
`current_branch` and `max(parsed_amounts) >= 1000`). -/
theorem blStep_emit (fy file : String) (st : BLState) (l : String)
    (st' : BLState) (r : BaselineLine)
    (h : blStep fy file st l = (st', some r)) :
    1000 ≤ r.budget_amount ∧ r.appropriation_category ≠ "" ∧ r.branch ≠ "" := by
  simp only [blStep] at h
  split at h
  · simp at h
  · split at h
    · simp at h
    · split at h
      · simp at h
      · split at h
        · simp at h
        · split at h
          · split at h
            · simp at h
            · split at h
              · simp at h
              · split at h
                · simp at h
                · simp only [Prod.mk.injEq, Option.some.injEq] at h
                  obtain ⟨-, hr⟩ := h
                  subst hr
                  have hg : (findAllBLAmounts (pyStrip l).data).length ≠ 0 ∧
                      pyTruthy st.cc = true ∧ pyTruthy st.cb = true := by assumption
                  have hm : ¬ (List.foldl max 0
                      (List.map intOfAmountChars (findAllBLAmounts (pyStrip l).data)) < 1000) := by
                    assumption
                  refine ⟨?_, ?_, ?_⟩
                  · have h1000 : 1000 ≤ List.foldl max 0
                        (List.map intOfAmountChars (findAllBLAmounts (pyStrip l).data)) := by
                      omega
                    show (1000 : Int) ≤ Int.ofNat (List.foldl max 0
                        (List.map intOfAmountChars (findAllBLAmounts (pyStrip l).data)))
                    exact Int.ofNat_le.mpr h1000
                  · obtain ⟨-, hcc, -⟩ := hg
                    cases hcase : st.cc with
                    | none => rw [hcase] at hcc; simp [pyTruthy] at hcc
                    | some s =>
                      rw [hcase] at hcc
                      simp only [pyTruthy] at hcc
                      simpa [hcase] using of_decide_eq_true hcc
                  · obtain ⟨-, -, hcb⟩ := hg
                    cases hcase : st.cb with
                    | none => rw [hcase] at hcb; simp [pyTruthy] at hcb
                    | some s =>
                      rw [hcase] at hcb
                      simp only [pyTruthy] at hcb
                      simpa [hcase] using of_decide_eq_true hcb
          · simp at h

/-- Every record in the output of the baseline line loop satisfies the
emission invariants of `blStep_emit`, whatever the starting state. -/
theorem blRun_mem_invariant (fy file : String) :
    ∀ (ls : List String) (st : BLState) (r : BaselineLine),
      r ∈ blRun fy file st ls →
      1000 ≤ r.budget_amount ∧ r.appropriation_category ≠ "" ∧ r.branch ≠ "" := by
  intro ls
  induction ls with
  | nil => intro st r h; simp [blRun] at h
  | cons l rest ih =>
    intro st r h
    unfold blRun at h
    cases hb : blStep fy file st l with
    | mk st' o =>
      rw [hb] at h
      cases o with
      | some r0 =>
        rcases List.mem_cons.mp h with h1 | h2
        · exact h1 ▸ blStep_emit fy file st l st' r0 hb
        · exact ih st' r h2
      | none => exact ih st' r h

/-- If the current-category pointer is unset and a line does not match
the appropriation header, one baseline step emits nothing and leaves the
pointer unset. -/
theorem blStep_cc_none (fy file : String) (st : BLState) (l : String)
    (hcc : st.cc = none)
    (hna : firstMatch matchBLAppropAt (pyStrip l).data = none) :
    (blStep fy file st l).1.cc = none ∧ (blStep fy file st l).2 = none := by
  simp only [blStep, hna]
  split
  · exact ⟨hcc, rfl⟩
  · split
    · exact ⟨hcc, rfl⟩
    · split
      · exact ⟨hcc, rfl⟩
      · split
        · rename_i hguard
          obtain ⟨-, hcc', -⟩ := hguard
          rw [hcc] at hcc'
          simp [pyTruthy] at hcc'
        · exact ⟨hcc, rfl⟩

/-- Input on which both grammars yield exactly one (different) record:
the first two lines form a one-record baseline table, the third line is
a one-record reprogramming action whose `+21` amount carries no comma
group and is therefore invisible to the baseline amount pattern. -/
def c2Text : String :=
  "Appropriation Account Title: Military Personnel, Army\nPay and Allowances of Officers 13,599,547\nOperation and Maintenance, Navy, 05/05 +21"

set_option maxRecDepth 40000 in
/-- **C2 counterexample**: on `c2Text` (a filename matching no
convention) both grammars yield exactly one record, and
`process_all_documents` keeps the reprogramming-action result, not the
baseline result the claim promises for ties. -/
theorem c2_counterexample :
    (parse_dd1414_baseline c2Text "doc.pdf").length =
      (parse_reprogramming_action c2Text "doc.pdf").length ∧
    processDocument c2Text "doc.pdf" =
      (parse_reprogramming_action c2Text "doc.pdf").map BudgetLine.reprog ∧
    (parse_reprogramming_action c2Text "doc.pdf").map BudgetLine.reprog ≠
      (parse_dd1414_baseline c2Text "doc.pdf").map BudgetLine.baseline := by
  exact ⟨by decide, by decide, by decide⟩

/-- **C2 amended**: for a document whose kind is not determined by
filename convention, `process_all_documents` runs both grammars and
keeps whichever yields more records — but ties are broken toward the
*reprogramming* grammar (`lines_baseline if len(lines_baseline) >
len(lines_reprog) else lines_reprog`), not the baseline grammar. -/
theorem c2_amended_tie_prefers_reprogramming (text filename : String)
    (hbl : ¬ (containsSub "DD_1414" filename = true ∨
        containsSub "Base_for_Reprogramming" filename = true))
    (hir : ¬ (containsSub "_IR_" filename = true ∨
        containsSub "_PA_" filename = true)) :
    ((parse_dd1414_baseline text filename).length ≤
        (parse_reprogramming_action text filename).length →
      processDocument text filename =
        (parse_reprogramming_action text filename).map BudgetLine.reprog) ∧
    ((parse_reprogramming_action text filename).length <
        (parse_dd1414_baseline text filename).length →
      processDocument text filename =
        (parse_dd1414_baseline text filename).map BudgetLine.baseline) := by
  constructor
  · intro hle
    simp only [processDocument, if_neg hbl, if_neg hir, autoDetectLines]
    rw [if_neg]
    simp only [List.length_map]
    omega
  · intro hlt
    simp only [processDocument, if_neg hbl, if_neg hir, autoDetectLines]
    rw [if_pos]
    simp only [List.length_map]
    omega

set_option maxRecDepth 40000 in
/-- Witness for the amended C2: on `c2Text` the two grammars tie (one
record each) and the dispatcher keeps the reprogramming result. -/
theorem c2_amended_witness :
    (parse_dd1414_baseline c2Text "doc.pdf").length ≤
      (parse_reprogramming_action c2Text "doc.pdf").length ∧
    processDocument c2Text "doc.pdf" =
      (parse_reprogramming_action c2Text "doc.pdf").map BudgetLine.reprog :=
  ⟨by decide,
    (c2_amended_tie_prefers_reprogramming c2Text "doc.pdf" (by decide) (by decide)).1
      (by decide)⟩

/-- Input whose single data line has a leading numeric value below the
1,000 floor (`0,500`, value 500) but a later value above it. -/
def c7Text : String :=
  "Appropriation Account Title: Operation and Maintenance, Navy\nSome program line item 0,500 2,000,000"

set_option maxRecDepth 40000 in
/-- **C7 counterexample**: the claim says every data line whose *leading*
numeric value is below 1,000 is discarded.  On `c7Text` the data line's
leading amount `0,500` parses to 500 < 1000, yet the line is *not*
discarded: the scan keeps it because the *maximum* of the line's values
(2,000,000) clears the floor. -/
theorem c7_counterexample :
    parse_dd1414_baseline c7Text "doc.pdf" =
      [{ fiscal_year := "Unknown",
         appropriation_category := "Operation and Maintenance",
         branch := "Navy", budget_activity_number := "",
         budget_activity_title := "",
         program_element := "Some program line item",
         budget_amount := 2000000, is_decrease := false,
         raw_amounts := ["0,500", "2,000,000"], file := "doc.pdf",
         type := "baseline" }] ∧
    intOfAmountChars "0,500".data = 500 ∧ 500 < 1000 := by
  exact ⟨by decide, by decide, by decide⟩

/-- **C7 amended**: the baseline scan discards a data line as noise
exactly when the *maximum* of the absolute values parsed from the line
is below 1,000 (`main_amount = max(parsed_amounts); if main_amount <
1000: continue`); the leading value alone does not decide.  Hence every
emitted baseline record carries `budget_amount ≥ 1000`, while a line
whose leading value is small may still produce a record. -/
theorem c7_amended_max_floor (text filename : String) (r : BaselineLine)
    (h : r ∈ parse_dd1414_baseline text filename) :
    1000 ≤ r.budget_amount := by
  simp only [parse_dd1414_baseline] at h
  exact (blRun_mem_invariant _ _ _ _ _ h).1

set_option maxRecDepth 40000 in
/-- Witness for the amended C7: the record emitted from `c7Text` is in
the parse output and its amount is at least 1,000. -/
theorem c7_amended_witness :
    ({ fiscal_year := "Unknown",
       appropriation_category := "Operation and Maintenance",
       branch := "Navy", budget_activity_number := "",
       budget_activity_title := "",
       program_element := "Some program line item",
       budget_amount := 2000000, is_decrease := false,
       raw_amounts := ["0,500", "2,000,000"], file := "doc.pdf",
       type := "baseline" } : BaselineLine) ∈
        parse_dd1414_baseline c7Text "doc.pdf" ∧
    (1000 : Int) ≤ (2000000 : Int) :=
  ⟨by decide,
    c7_amended_max_floor c7Text "doc.pdf"
      { fiscal_year := "Unknown",
        appropriation_category := "Operation and Maintenance",
        branch := "Navy", budget_activity_number := "",
        budget_activity_title := "",
        program_element := "Some program line item",
        budget_amount := 2000000, is_decrease := false,
        raw_amounts := ["0,500", "2,000,000"], file := "doc.pdf",
        type := "baseline" } (by decide)⟩

/-- **C10**: the baseline grammar never emits a record before both scan
pointers are set.  First conjunct: every emitted record has non-empty
`appropriation_category` and `branch` (the emission guard requires truthy
pointers, which are only ever set to non-empty strings).  Second
conjunct: across any prefix of lines none of which matches the
appropriation header, the scan emits nothing and the category pointer
stays unset, so data lines with amounts that precede the first header
produce no records. -/
theorem c10_baseline_pointer_invariant :
    (∀ (text filename : String) (r : BaselineLine),
      r ∈ parse_dd1414_baseline text filename →
      r.appropriation_category ≠ "" ∧ r.branch ≠ "") ∧
    (∀ (fy file : String) (ls₁ ls₂ : List String) (st : BLState),
      st.cc = none →
      (∀ l ∈ ls₁, firstMatch matchBLAppropAt (pyStrip l).data = none) →
      ∃ st', blRun fy file st (ls₁ ++ ls₂) = blRun fy file st' ls₂ ∧
        st'.cc = none) := by
  constructor
  · intro text filename r h
    simp only [parse_dd1414_baseline] at h
    exact (blRun_mem_invariant _ _ _ _ _ h).2
  · intro fy file ls₁
    induction ls₁ with
    | nil => intro ls₂ st hcc _; exact ⟨st, rfl, hcc⟩
    | cons l rest ih =>
      intro ls₂ st hcc hna
      have hstep := blStep_cc_none fy file st l hcc (hna l (List.mem_cons_self l rest))
      obtain ⟨st', o, hb⟩ : ∃ st' o, blStep fy file st l = (st', o) :=
        ⟨_, _, rfl⟩
      rw [hb] at hstep
      simp only at hstep
      obtain ⟨hcc', ho⟩ := hstep
      subst ho
      have : blRun fy file st ((l :: rest) ++ ls₂) = blRun fy file st' (rest ++ ls₂) := by
        simp only [List.cons_append, blRun, hb]
        rfl
      rw [this]
      exact ih ls₂ st' hcc' (fun x hx => hna x (List.mem_cons_of_mem l hx))

set_option maxRecDepth 40000 in
/-- Witness for C10: the record from `c7Text` has non-empty category and
branch, and a one-line text with only a data line (no header) scans to no
records with the category pointer still unset. -/
theorem c10_witness :
    (({ fiscal_year := "Unknown",
        appropriation_category := "Operation and Maintenance",
        branch := "Navy", budget_activity_number := "",
        budget_activity_title := "",
        program_element := "Some program line item",
        budget_amount := 2000000, is_decrease := false,
        raw_amounts := ["0,500", "2,000,000"], file := "doc.pdf",
        type := "baseline" } : BaselineLine).appropriation_category ≠ "" ∧
      ("Navy" : String) ≠ "") ∧
    (∃ st', blRun "Unknown" "doc.pdf" initBLState
        (["Some data line with amounts 1,234,567"] ++ []) =
          blRun "Unknown" "doc.pdf" st' [] ∧ st'.cc = none) :=
  ⟨c10_baseline_pointer_invariant.1 c7Text "doc.pdf" _ (by decide),
   c10_baseline_pointer_invariant.2 "Unknown" "doc.pdf"
     ["Some data line with amounts 1,234,567"] [] initBLState rfl
     (by intro l hl; simp only [List.mem_singleton] at hl; subst hl; decide)⟩

/-!
## Flow aggregation

`BudgetParser.create_sankey_data` (src/budget_parser.py, lines 242-327):
baseline group-and-sum flow emission (lines 281-296) and the
`(source, target, type)`-keyed flow aggregation (lines 298-327).
-/

/-- One entry of the `flows` list built by `create_sankey_data`. -/
structure Flow where
  source : String
  target : String
  value : Int
  fiscal_year : String
  type : String
  direction : String
deriving DecidableEq

/-- The pandas `groupby(['appropriation_category', 'branch',
'fiscal_year'])` key of a baseline record. -/
def blKey (r : BaselineLine) : String × String × String :=
  (r.appropriation_category, r.branch, r.fiscal_year)

/-- Sum of `budget_amount` over one groupby group. -/
def blGroupSum (rows : List BaselineLine) (k : String × String × String) : Int :=
  ((rows.filter (fun r => blKey r = k)).map (fun r => r.budget_amount)).sum

/-- The baseline flow emission of `create_sankey_data` (lines 281-296):
one `category → branch` flow per groupby group, kept only when the
group's sum strictly exceeds 50,000.  (pandas enumerates the distinct
keys sorted; the set of emitted flows, which is what the claims are
about, does not depend on that order.) -/
def baselineFlows (rows : List BaselineLine) : List Flow :=
  ((rows.map blKey).dedup).filterMap (fun k =>
    let s := blGroupSum rows k
    if 50000 < s then
      some { source := k.1, target := k.2.1, value := s, fiscal_year := k.2.2,
             type := "baseline", direction := "baseline" }
    else none)

/-- A baseline record with the given amount, for the concrete floor
instances. -/
def c6Row (amt : Int) : BaselineLine :=
  { fiscal_year := "2005", appropriation_category := "Operation and Maintenance",
    branch := "Army", budget_activity_number := "", budget_activity_title := "",
    program_element := "x", budget_amount := amt, is_decrease := false,
    raw_amounts := [], file := "f", type := "baseline" }

/-- **C6** (spec §4.6, §8): a `category → branch` baseline edge is
emitted for a `(category, branch, fiscal_year)` group if and only if the
group's summed amount strictly exceeds 50,000 (`if row['budget_amount'] >
50000`); in particular a singleton group summing to exactly 50,000 is
excluded and one summing to 50,001 is included. -/
theorem c6_materiality_floor :
    (∀ (rows : List BaselineLine) (k : String × String × String),
      (∃ f ∈ baselineFlows rows,
        (f.source, f.target, f.fiscal_year) = k ∧ f.type = "baseline") ↔
      (k ∈ rows.map blKey ∧ 50000 < blGroupSum rows k)) ∧
    baselineFlows [c6Row 50000] = [] ∧
    baselineFlows [c6Row 50001] =
      [{ source := "Operation and Maintenance", target := "Army",
         value := 50001, fiscal_year := "2005", type := "baseline",
         direction := "baseline" }] := by
  refine ⟨?_, by decide, by decide⟩
  intro rows k
  constructor
  · rintro ⟨f, hf, hk, -⟩
    simp only [baselineFlows, List.mem_filterMap] at hf
    obtain ⟨k', hk', hsome⟩ := hf
    by_cases hgt : 50000 < blGroupSum rows k'
    · rw [if_pos hgt] at hsome
      obtain rfl := Option.some.injEq _ _ ▸ hsome
      obtain ⟨a, b, c⟩ := k'
      simp only at hk
      subst hk
      exact ⟨List.mem_dedup.mp hk', hgt⟩
    · rw [if_neg hgt] at hsome
      exact absurd hsome (by simp)
  · rintro ⟨hmem, hsum⟩
    refine ⟨{ source := k.1, target := k.2.1, value := blGroupSum rows k,
              fiscal_year := k.2.2, type := "baseline", direction := "baseline" },
            ?_, ?_, rfl⟩
    · simp only [baselineFlows, List.mem_filterMap]
      exact ⟨k, List.mem_dedup.mpr hmem, by rw [if_pos hsum]⟩
    · obtain ⟨a, b, c⟩ := k
      rfl

/-- The `(source, target, type)` aggregation key of
`create_sankey_data` (line 302). -/
def flowKey (f : Flow) : String × String × String :=
  (f.source, f.target, f.type)

/-- The accumulated `flow_dict[key]['value']` map: a left fold over the
flows mirroring `flow_dict[key]['value'] += flow['value']` with the
defaultdict zero start. -/
def aggValue (fs : List Flow) : (String × String × String) → Int :=
  fs.foldl (fun m f k => if k = flowKey f then m k + f.value else m k) (fun _ => 0)

/-- The accumulated `flow_dict[key]['fiscal_years']` collection (the
Python set is modelled as the list of added years; the claims compare it
by membership). -/
def aggYears (fs : List Flow) : (String × String × String) → List String :=
  fs.foldl (fun m f k => if k = flowKey f then m k ++ [f.fiscal_year] else m k)
    (fun _ => [])

/-- The keys of `flow_dict` in insertion order. -/
def aggKeys (fs : List Flow) : List (String × String × String) :=
  fs.foldl (fun ks f => if flowKey f ∈ ks then ks else ks ++ [flowKey f]) []

theorem aggValue_fold (fs : List Flow) :
    ∀ (m : (String × String × String) → Int) (k : String × String × String),
      fs.foldl (fun m f k => if k = flowKey f then m k + f.value else m k) m k =
        m k + ((fs.filter (fun f => flowKey f = k)).map (fun f => f.value)).sum := by
  induction fs with
  | nil => intro m k; simp
  | cons f rest ih =>
    intro m k
    simp only [List.foldl_cons]
    rw [ih]
    by_cases hk : k = flowKey f
    · rw [List.filter_cons_of_pos (by simp [hk])]
      simp [if_pos hk, add_assoc]
    · rw [List.filter_cons_of_neg (by simpa using fun h => hk h.symm)]
      simp [if_neg hk]

/-- `aggValue` is the per-key sum of contributing flow values. -/
theorem aggValue_eq_sum (fs : List Flow) (k : String × String × String) :
    aggValue fs k =
      ((fs.filter (fun f => flowKey f = k)).map (fun f => f.value)).sum := by
  have := aggValue_fold fs (fun _ => 0) k
  simpa [aggValue] using this

theorem aggYears_fold (fs : List Flow) :
    ∀ (m : (String × String × String) → List String) (k : String × String × String),
      fs.foldl (fun m f k => if k = flowKey f then m k ++ [f.fiscal_year] else m k) m k =
        m k ++ ((fs.filter (fun f => flowKey f = k)).map (fun f => f.fiscal_year)) := by
  induction fs with
  | nil => intro m k; simp
  | cons f rest ih =>
    intro m k
    simp only [List.foldl_cons]
    rw [ih]
    by_cases hk : k = flowKey f
    · rw [List.filter_cons_of_pos (by simp [hk])]
      simp [if_pos hk]
    · rw [List.filter_cons_of_neg (by simpa using fun h => hk h.symm)]
      simp [if_neg hk]

/-- Membership in `aggYears` is exactly "some flow with this key
contributed this fiscal year". -/
theorem aggYears_mem (fs : List Flow) (k : String × String × String) (y : String) :
    y ∈ aggYears fs k ↔ ∃ f ∈ fs, flowKey f = k ∧ f.fiscal_year = y := by
  have := aggYears_fold fs (fun _ => []) k
  simp only [aggYears]
  rw [this]
  simp only [List.nil_append, List.mem_map, List.mem_filter]
  constructor
  · rintro ⟨f, ⟨hf, hkey⟩, hy⟩
    exact ⟨f, hf, of_decide_eq_true hkey, hy⟩
  · rintro ⟨f, hf, hkey, hy⟩
    exact ⟨f, ⟨hf, decide_eq_true hkey⟩, hy⟩

theorem aggKeys_fold (fs : List Flow) :
    ∀ (ks : List (String × String × String)) (k : String × String × String),
      (k ∈ fs.foldl (fun ks f => if flowKey f ∈ ks then ks else ks ++ [flowKey f]) ks ↔
        k ∈ ks ∨ ∃ f ∈ fs, flowKey f = k) := by
  induction fs with
  | nil => intro ks k; simp
  | cons f rest ih =>
    intro ks k
    simp only [List.foldl_cons]
    rw [ih]
    have hstep : (k ∈ if flowKey f ∈ ks then ks else ks ++ [flowKey f]) ↔
        (k ∈ ks ∨ flowKey f = k) := by
      by_cases hmem : flowKey f ∈ ks
      · rw [if_pos hmem]
        constructor
        · exact Or.inl
        · rintro (h | rfl)
          · exact h
          · exact hmem
      · rw [if_neg hmem]
        simp only [List.mem_append, List.mem_singleton]
        constructor
        · rintro (h | rfl)
          · exact Or.inl h
          · exact Or.inr rfl
        · rintro (h | rfl)
          · exact Or.inl h
          · exact Or.inr rfl
    rw [hstep]
    simp only [List.mem_cons]
    constructor
    · rintro ((h | h) | ⟨g, hg, hk⟩)
      · exact Or.inl h
      · exact Or.inr ⟨f, Or.inl rfl, h⟩
      · exact Or.inr ⟨g, Or.inr hg, hk⟩
    · rintro (h | ⟨g, (rfl | hg), hk⟩)
      · exact Or.inl (Or.inl h)
      · exact Or.inl (Or.inr hk)
      · exact Or.inr ⟨g, hg, hk⟩

/-- Membership in `aggKeys` is exactly "some flow has this key". -/
theorem aggKeys_mem (fs : List Flow) (k : String × String × String) :
    k ∈ aggKeys fs ↔ ∃ f ∈ fs, flowKey f = k := by
  have := aggKeys_fold fs [] k
  simpa [aggKeys] using this

/-- The key list never acquires a duplicate: each key maps to one
aggregated edge. -/
theorem aggKeys_nodup (fs : List Flow) : (aggKeys fs).Nodup := by
  suffices h : ∀ (ks : List (String × String × String)), ks.Nodup →
      (fs.foldl (fun ks f => if flowKey f ∈ ks then ks else ks ++ [flowKey f]) ks).Nodup by
    exact h [] List.nodup_nil
  induction fs with
  | nil => intro ks h; simpa using h
  | cons f rest ih =>
    intro ks h
    simp only [List.foldl_cons]
    apply ih
    by_cases hmem : flowKey f ∈ ks
    · rwa [if_pos hmem]
    · rw [if_neg hmem]
      simp [List.nodup_append, h, hmem]

/-- **C8** (spec §3 FlowEdge, §5, §8): in the aggregation loop of
`create_sankey_data`, (1) all flows sharing a `(source, target, type)`
key are summed into a single per-key value; (2) the key's
`fiscal_years` collects exactly the contributing flows' years; (3) each
key yields one aggregated edge (no duplicate keys); (4) permuting the
flow list leaves every per-key value, the key set, and the year sets
unchanged (edge-key summation is commutative and associative); and (5)
appending a flow with non-negative value never decrements any key's
value (within `create_sankey_data` every flow value is an absolute
amount or a positive baseline sum, so no edge is ever decremented). -/
theorem c8_aggregation_properties :
    (∀ (fs : List Flow) (k : String × String × String),
      aggValue fs k =
        ((fs.filter (fun f => flowKey f = k)).map (fun f => f.value)).sum) ∧
    (∀ (fs : List Flow) (k : String × String × String) (y : String),
      y ∈ aggYears fs k ↔ ∃ f ∈ fs, flowKey f = k ∧ f.fiscal_year = y) ∧
    (∀ fs : List Flow, (aggKeys fs).Nodup) ∧
    (∀ (fs₁ fs₂ : List Flow), fs₁.Perm fs₂ →
      ∀ k : String × String × String,
        aggValue fs₁ k = aggValue fs₂ k ∧
        (k ∈ aggKeys fs₁ ↔ k ∈ aggKeys fs₂) ∧
        (∀ y, y ∈ aggYears fs₁ k ↔ y ∈ aggYears fs₂ k)) ∧
    (∀ (fs : List Flow) (f : Flow), 0 ≤ f.value →
      ∀ k, aggValue fs k ≤ aggValue (fs ++ [f]) k) := by
  refine ⟨aggValue_eq_sum, aggYears_mem, aggKeys_nodup, ?_, ?_⟩
  · intro fs₁ fs₂ hperm k
    refine ⟨?_, ?_, ?_⟩
    · rw [aggValue_eq_sum, aggValue_eq_sum]
      exact ((hperm.filter _).map _).sum_eq
    · rw [aggKeys_mem, aggKeys_mem]
      constructor
      · rintro ⟨f, hf, hk⟩; exact ⟨f, hperm.mem_iff.mp hf, hk⟩
      · rintro ⟨f, hf, hk⟩; exact ⟨f, hperm.mem_iff.mpr hf, hk⟩
    · intro y
      rw [aggYears_mem, aggYears_mem]
      constructor
      · rintro ⟨f, hf, hk⟩; exact ⟨f, hperm.mem_iff.mp hf, hk⟩
      · rintro ⟨f, hf, hk⟩; exact ⟨f, hperm.mem_iff.mpr hf, hk⟩
  · intro fs f hval k
    rw [aggValue_eq_sum, aggValue_eq_sum, List.filter_append, List.map_append,
      List.sum_append]
    by_cases hk : flowKey f = k
    · have hfil : List.filter (fun g => decide (flowKey g = k)) [f] = [f] := by
        simp [hk]
      rw [hfil]
      simp only [List.map_cons, List.map_nil, List.sum_cons, List.sum_nil]
      omega
    · have hfil : List.filter (fun g => decide (flowKey g = k)) [f] = [] := by
        simp [hk]
      rw [hfil]
      simp

/-- Two concrete flows for the C8 witness. -/
def c8FlowA : Flow :=
  { source := "Operation and Maintenance", target := "Army", value := 3,
    fiscal_year := "2001", type := "category_to_branch", direction := "increase" }

/-- A second concrete flow sharing the key of `c8FlowA`. -/
def c8FlowB : Flow :=
  { source := "Operation and Maintenance", target := "Army", value := 4,
    fiscal_year := "2002", type := "category_to_branch", direction := "increase" }

/-- Witness for C8: a concrete permutation of two keyed flows leaves the
aggregated value unchanged, and appending a non-negative flow does not
decrement it. -/
theorem c8_witness :
    aggValue [c8FlowA, c8FlowB]
        ("Operation and Maintenance", "Army", "category_to_branch") =
      aggValue [c8FlowB, c8FlowA]
        ("Operation and Maintenance", "Army", "category_to_branch") ∧
    (0 : Int) ≤ c8FlowA.value ∧
    aggValue [c8FlowB]
        ("Operation and Maintenance", "Army", "category_to_branch") ≤
      aggValue ([c8FlowB] ++ [c8FlowA])
        ("Operation and Maintenance", "Army", "category_to_branch") :=
  ⟨(c8_aggregation_properties.2.2.2.1 [c8FlowA, c8FlowB] [c8FlowB, c8FlowA]
      (List.Perm.swap c8FlowB c8FlowA []) _).1,
   by decide,
   c8_aggregation_properties.2.2.2.2 [c8FlowB] c8FlowA (by decide) _⟩

/-!
## Rule-based CSV parser

`rule_csv_parser.py` (lines 18-133): section extraction by branch
markers, per-section field extraction, and the meaningful-row guard.
-/

/-- Is the character before the current position a word character?
(`\b` fails before a word character at a non-boundary.) -/
def prevIsWord (prev : Option Char) : Bool :=
  match prev with
  | some c => isWordChar c
  | none => false

/-- The branch alternation of `BRANCH_REGEX`
(`ARMY|NAVY|AIR\s+FORCE|DEFENSE-WIDE|MARINE\s+CORPS|COAST\s+GUARD`),
case-insensitive, keeping the original span (the alternatives have
pairwise distinct first letters, so ordered first-match is exact). -/
def matchBranchAlt (cs : List Char) : Option (List Char × List Char) :=
  match ciTake "army".data cs with
  | some r => some r
  | none =>
  match ciTake "navy".data cs with
  | some r => some r
  | none =>
  match (do
      let r1 ← ciDrop "air".data cs
      let r2 ← wsPlus r1
      let r3 ← ciDrop "force".data r2
      some (cs.take (cs.length - r3.length), r3) : Option (List Char × List Char)) with
  | some r => some r
  | none =>
  match ciTake "defense-wide".data cs with
  | some r => some r
  | none =>
  match (do
      let r1 ← ciDrop "marine".data cs
      let r2 ← wsPlus r1
      let r3 ← ciDrop "corps".data r2
      some (cs.take (cs.length - r3.length), r3) : Option (List Char × List Char)) with
  | some r => some r
  | none =>
    (do
      let r1 ← ciDrop "coast".data cs
      let r2 ← wsPlus r1
      let r3 ← ciDrop "guard".data r2
      some (cs.take (cs.length - r3.length), r3))

/-- One attempt of `BRANCH_REGEX = \b(branches)\b\s+(INCREASE|DECREASE)`
(case-insensitive) given the previous character: group 1 and the
consumed length.  The trailing `\b` is subsumed by the mandatory
whitespace. -/
def branchMatchAt (prev : Option Char) (cs : List Char) : Option (List Char × Nat) :=
  if prevIsWord prev then none
  else do
    let (g1, r1) ← matchBranchAlt cs
    let r2 ← wsPlus r1
    let r3 ←
      match ciDrop "increase".data r2 with
      | some r => some r
      | none => ciDrop "decrease".data r2
    some (g1, cs.length - r3.length)

/-- Start offsets of all non-overlapping `BRANCH_REGEX` matches
(`finditer`), tracking the previous character for `\b`. -/
def allBranchStarts : Nat → Option Char → List Char → Nat → List Nat
  | 0, _, _, _ => []
  | fu + 1, prev, cs, off =>
    match cs with
    | [] => []
    | c :: rest =>
      match branchMatchAt prev cs with
      | some (_, len) =>
        let step := max len 1
        off :: allBranchStarts fu ((cs.take step).getLast? |>.orElse (fun _ => prev))
          (cs.drop step) (off + step)
      | none => allBranchStarts fu (some c) rest (off + 1)

/-- Consecutive pairs `(idxs[i], idxs[i+1])` with the end offset
appended. -/
def pairUp : List Nat → Nat → List (Nat × Nat)
  | [], _ => []
  | [a], e => [(a, e)]
  | a :: b :: rest, e => (a, b) :: pairUp (b :: rest) e

/-- `rule_csv_parser.extract_sections`. -/
def extract_sections (cs : List Char) : List (Nat × Nat) :=
  let idxs := allBranchStarts (cs.length + 1) none cs 0
  match idxs with
  | [] => [(0, cs.length)]
  | _ => pairUp idxs cs.length

/-- First `BRANCH_REGEX` match (group 1) in a character list treated as
a standalone string (so the start is a word boundary). -/
def firstBranchGroup : Option Char → List Char → Option (List Char)
  | prev, [] =>
    match branchMatchAt prev [] with
    | some (g, _) => some g
    | none => none
  | prev, c :: rest =>
    match branchMatchAt prev (c :: rest) with
    | some (g, _) => some g
    | none => firstBranchGroup (some c) rest

/-- The literal dictionary of `find_branch`; `none` models the Python
`KeyError` raised when the upper-cased group is not a key (e.g. an
`AIR\s+FORCE` match whose inner whitespace is not a single space). -/
def branchDict (b : String) : Option String :=
  if b = "ARMY" then some "Army"
  else if b = "NAVY" then some "Navy"
  else if b = "AIR FORCE" then some "Air Force"
  else if b = "DEFENSE-WIDE" then some "Defense-Wide"
  else if b = "MARINE CORPS" then some "Marines"
  else if b = "COAST GUARD" then some "Coast Guard"
  else none

/-- `rule_csv_parser.find_branch`: search the 1000 characters before
`pos`; `some ""` is the no-match return, `none` is the `KeyError`
exception path. -/
def find_branch (cs : List Char) (pos : Nat) : Option String :=
  let before := (cs.take pos).drop (pos - 1000)
  match firstBranchGroup none before with
  | none => some ""
  | some g => branchDict (asciiUpper (String.mk g))

/-- Does the case-insensitive pattern occur at or after this position,
with no newline consumed by a `.*` gap before it?  (For the greedy
`Research.*Development` existence test: `.` does not match newline.) -/
def containsCiBeforeNewline (pat : List Char) : List Char → Bool
  | [] => false
  | c :: rest =>
    ciStartsWith (String.mk pat) (c :: rest) ||
      (!(c = '\n') && containsCiBeforeNewline pat rest)

/-- Existence of a `Research.*Development`-shaped match (case
insensitive). -/
def existsResearchThen (word : List Char) : List Char → Bool
  | [] => false
  | c :: rest =>
    (match ciDrop "research".data (c :: rest) with
     | some r => containsCiBeforeNewline word r
     | none => false) ||
    existsResearchThen word rest

/-- Existence of `Operation\s+and\s+Maintenance` (ci) at the front. -/
def omAt (cs : List Char) : Bool :=
  (do
    let r1 ← ciDrop "operation".data cs
    let r2 ← wsPlus r1
    let r3 ← ciDrop "and".data r2
    let r4 ← wsPlus r3
    ciDrop "maintenance".data r4).isSome

/-- Existence of `Weapons?\s+Procurement` (ci) at the front. -/
def weaponsAt (cs : List Char) : Bool :=
  (do
    let r1 ← ciDrop "weapon".data cs
    let r1' := match r1 with
      | c :: rest => if c.toLower = 's' then rest else r1
      | [] => r1
    let r2 ← wsPlus r1'
    ciDrop "procurement".data r2).isSome

/-- Existence of `Missile\s+Procurement` (ci) at the front. -/
def missileAt (cs : List Char) : Bool :=
  (do
    let r1 ← ciDrop "missile".data cs
    let r2 ← wsPlus r1
    ciDrop "procurement".data r2).isSome

/-- `(?<!,)\bProcurement\b` (ci) at the front, given the previous
character: not preceded by a comma, word boundaries on both sides. -/
def procurementAt (prev : Option Char) (cs : List Char) : Bool :=
  !(prev = some ',') && !prevIsWord prev &&
    (match ciDrop "procurement".data cs with
     | some r =>
       match r with
       | [] => true
       | c :: _ => !isWordChar c
     | none => false)

/-- `\bRDTE\b` (ci) at the front, given the previous character. -/
def rdteAt (prev : Option Char) (cs : List Char) : Bool :=
  !prevIsWord prev &&
    (match ciDrop "rdte".data cs with
     | some r =>
       match r with
       | [] => true
       | c :: _ => !isWordChar c
     | none => false)

/-- `re.search` existence for a matcher that inspects the previous
character. -/
def existsWithPrev (f : Option Char → List Char → Bool) : Option Char → List Char → Bool
  | prev, [] => f prev []
  | prev, c :: rest => f prev (c :: rest) || existsWithPrev f (some c) rest

/-- `re.search` existence for a positional matcher. -/
def existsAt (f : List Char → Bool) : List Char → Bool
  | [] => f []
  | c :: rest => f (c :: rest) || existsAt f rest

/-- `rule_csv_parser.find_category`: the `CATEGORY_PATTERNS` dictionary
probed in insertion order, first name whose pattern occurs. -/
def find_category (snippet : List Char) : String :=
  if existsAt omAt snippet then "Operation and Maintenance"
  else if existsAt weaponsAt snippet then "Weapons Procurement"
  else if existsAt missileAt snippet then "Missile Procurement"
  else if existsWithPrev procurementAt none snippet then "Procurement"
  else if existsWithPrev rdteAt none snippet ||
      existsResearchThen "development".data snippet then "RDTE"
  else ""

/-- One attempt of `PEM_REGEX = \b(\d{7}[A-Z])\b` (case-sensitive),
given the previous character. -/
def pemAt (prev : Option Char) (cs : List Char) : Option (List Char) :=
  if prevIsWord prev then none
  else
    let t := cs.take 7
    if t.length = 7 ∧ t.all Char.isDigit then
      match cs.drop 7 with
      | c :: rest2 =>
        if 'A' ≤ c ∧ c ≤ 'Z' then
          match rest2 with
          | [] => some (t ++ [c])
          | d :: _ => if isWordChar d then none else some (t ++ [c])
        else none
      | [] => none
    else none

/-- First `PEM_REGEX` match in the text. -/
def firstPem : Option Char → List Char → Option (List Char)
  | prev, [] => pemAt prev []
  | prev, c :: rest =>
    match pemAt prev (c :: rest) with
    | some g => some g
    | none => firstPem (some c) rest

/-- `$` of `CAP_LINE` under `re.MULTILINE`: end of text or a newline
here. -/
def dollarHere (cs : List Char) : Bool :=
  match cs with
  | [] => true
  | '\n' :: _ => true
  | _ => false

/-- Can `\s*$` (MULTILINE) match starting here?  The greedy run may stop
at any newline inside the whitespace run or consume it all to the end. -/
def tailWsDollar (s : List Char) : Bool :=
  '\n' ∈ s.takeWhile isPySpace || (s.dropWhile isPySpace).isEmpty

/-- ASCII upper-case letter. -/
def isUpperAZ (c : Char) : Bool :=
  'A' ≤ c ∧ c ≤ 'Z'

/-- The character class `[A-Za-z\s\-]` of `CAP_LINE`. -/
def isCapLineClass (c : Char) : Bool :=
  ('A' ≤ c ∧ c ≤ 'Z') ∨ ('a' ≤ c ∧ c ≤ 'z') ∨ isPySpace c ∨ c = '-'

/-- One attempt of
`CAP_LINE = ^\s*([A-Z][A-Za-z\s\-]+(?:\([^)]+\))?)\s*$` (MULTILINE) at a
line start: `\s*` longest first, the `+` run longest first, the
parenthesized tail preferred present, reproducing the backtracking
order; returns group 1. -/
def capLineMatchAt (cs : List Char) : Option (List Char) :=
  let wmax := (cs.takeWhile isPySpace).length
  ((List.range (wmax + 1)).reverse).findSome? (fun j =>
    match cs.drop j with
    | [] => none
    | c :: rest =>
      if isUpperAZ c then
        let mmax := (rest.takeWhile isCapLineClass).length
        (List.range mmax).findSome? (fun i =>
          let m := mmax - i
          let t := rest.take m
          let pos2 := rest.drop m
          let parenTry : Option (List Char) :=
            match pos2 with
            | '(' :: tl =>
              let inner := tl.takeWhile (fun d => !(d = ')'))
              if 1 ≤ inner.length then
                match tl.drop inner.length with
                | ')' :: after =>
                  if tailWsDollar after then some ((c :: t) ++ '(' :: (inner ++ [')']))
                  else none
                | _ => none
              else none
            | _ => none
          match parenTry with
          | some g => some g
          | none => if tailWsDollar pos2 then some (c :: t) else none)
      else none)

/-- First `CAP_LINE` match (group 1): tried at the text start and after
every newline, as `^` (MULTILINE) requires. -/
def capLineFirst : Option Char → List Char → Option (List Char)
  | prev, cs =>
    let attempt :=
      match prev with
      | none => capLineMatchAt cs
      | some c => if c = '\n' then capLineMatchAt cs else none
    match attempt with
    | some g => some g
    | none =>
      match cs with
      | [] => none
      | c :: rest => capLineFirst (some c) rest

/-- One attempt of
`AMOUNT_REGEX = [+\-]?\$?(\d{1,3}(?:,\d{3})*(?:\.\d+)?)`: the captured
group (without sign and dollar) and the consumed length. -/
def matchRcpAmountAt (cs : List Char) : Option (List Char × Nat) :=
  let p1 : List Char × Nat :=
    match cs with
    | c :: rest => if c = '+' ∨ c = '-' then (rest, 1) else (cs, 0)
    | [] => (cs, 0)
  let p2 : List Char × Nat :=
    match p1.1 with
    | '$' :: rest => (rest, p1.2 + 1)
    | _ => p1
  let s2 := p2.1
  let run := s2.takeWhile Char.isDigit
  if run.length = 0 then none
  else
    let d := min 3 run.length
    let g := (commaGroups s2.length (s2.drop d)).1
    let afterGroups := (commaGroups s2.length (s2.drop d)).2
    let dec : List Char :=
      match afterGroups with
      | '.' :: tl =>
        let ds := tl.takeWhile Char.isDigit
        if 1 ≤ ds.length then '.' :: ds else []
      | _ => []
    let grp := s2.take d ++ g ++ dec
    some (grp, p2.2 + grp.length)

/-- `rule_csv_parser.find_amounts` = `AMOUNT_REGEX.findall(snippet)`
(the captured groups). -/
def rcpAmounts (cs : List Char) : List (List Char) :=
  (allMatches matchRcpAmountAt (cs.length + 1) cs 0).map (fun p => p.1)

/-- Stop words of `EXPL_REGEX` in `rule_csv_parser` and
`csv_transformer`. -/
def rcpStops : List String :=
  ["army", "navy", "air force", "defense-wide", "budget activity", "explanation"]

/-- One output row of `parse_text` / `parse_ocr_text` (the shared
`COLUMNS` dict; the Python keys `appropriation code` and
`appropriation activity` contain spaces). -/
structure RcpRow where
  appropriation_category : String
  appropriation_code : String
  appropriation_activity : String
  branch : String
  fiscal_year_start : String
  fiscal_year_end : String
  budget_activity_number : String
  budget_activity_title : String
  pem : String
  budget_title : String
  program_base_congressional : String
  program_base_dod : String
  reprogramming_amount : String
  revised_program_total : String
  explanation : String
  file : String
deriving DecidableEq

/-- The candidate row a `parse_text` section builds (src/rule_csv_parser.py
lines 99-128), given the branch string `find_branch` returned. -/
def buildRcpRow (cs : List Char) (file : String) (se : Nat × Nat)
    (branch : String) : RcpRow :=
  let snippet := (cs.drop se.1).take (se.2 - se.1)
  let fys := find_fys (String.mk snippet)
  let ba := firstMatch matchBAAt snippet
  let amounts := rcpAmounts snippet
  let expl :=
    match firstMatch (matchExplAt rcpStops) snippet with
    | some e => pyNormWs (String.mk e)
    | none => ""
  { appropriation_category := find_category snippet, appropriation_code := "",
    appropriation_activity := "", branch := branch,
    fiscal_year_start := fys.1, fiscal_year_end := fys.2,
    budget_activity_number :=
      match ba with | some p => String.mk p.1 | none => "",
    budget_activity_title :=
      match ba with | some p => pyStrip (String.mk p.2) | none => "",
    pem := match firstPem none snippet with | some g => String.mk g | none => "",
    budget_title :=
      match capLineFirst none snippet with | some g => String.mk g | none => "",
    program_base_congressional :=
      match amounts.get? 0 with | some a => String.mk a | none => "-",
    program_base_dod :=
      match amounts.get? 1 with | some a => String.mk a | none => "-",
    reprogramming_amount :=
      match amounts.get? 2 with | some a => String.mk a | none => "-",
    revised_program_total :=
      match amounts.get? 3 with | some a => String.mk a | none => "-",
    explanation := if expl = "" then "-" else expl,
    file := file }

/-- One iteration of the section loop of `parse_text`: `none` is the
`KeyError` exception path of `find_branch`; `some none` is a discarded
candidate; `some (some row)` an emitted row
(`if any([branch, category, amounts]): rows.append(row)`). -/
def sectionRow (cs : List Char) (file : String) (se : Nat × Nat) :
    Option (Option RcpRow) :=
  let snippet := (cs.drop se.1).take (se.2 - se.1)
  match find_branch cs se.1 with
  | none => none
  | some branch =>
    some
      (if branch ≠ "" ∨ find_category snippet ≠ "" ∨ rcpAmounts snippet ≠ [] then
        some (buildRcpRow cs file se branch)
      else none)

/-- Effectful map over `Option` (left to right, stopping at the first
`none`), mirroring a Python loop in which an iteration may raise. -/
def optMapAll {α β : Type} (f : α → Option β) : List α → Option (List β)
  | [] => some []
  | a :: rest => do
    let b ← f a
    let bs ← optMapAll f rest
    some (b :: bs)

/-- `rule_csv_parser.parse_text` (the rows of the returned DataFrame);
`none` models the whole call raising `KeyError`. -/
def parse_text (ocr_text source_file : String) : Option (List RcpRow) :=
  (optMapAll (sectionRow ocr_text.data source_file) (extract_sections ocr_text.data)).map
    (fun l => l.filterMap id)

/-- The "meaningful row" signal of a section:
`any([branch, category, amounts])` (with a crashing `find_branch`
counting as no branch signal). -/
def sectionSignal (cs : List Char) (se : Nat × Nat) : Bool :=
  let snippet := (cs.drop se.1).take (se.2 - se.1)
  (match find_branch cs se.1 with
   | some b => decide (b ≠ "")
   | none => false) ||
  decide (find_category snippet ≠ "") || decide (rcpAmounts snippet ≠ [])

/-!
## CSV transformer

`CSVTransformer.parse_ocr_text` (src/csv_transformer.py, lines 162-242)
and its `_extract_*` helpers (lines 81-160): the same section shape with
slightly different recognizers (no word boundaries on the branch
pattern, windowed category and budget-activity searches, a lookahead
`Procurement(?!,)`). -/

/-- A phrase of words separated by `\s+`, matched case-insensitively at
the front. -/
def matchPhrase : List String → List Char → Option (List Char)
  | [], cs => some cs
  | [w], cs => ciDrop w.data cs
  | w :: ws, cs => do
    let r ← ciDrop w.data cs
    let r2 ← wsPlus r
    matchPhrase ws r2

/-- One attempt of the transformer's branch pattern
`(alternatives)\s+(?:INCREASE|DECREASE)` (no word boundaries):
consumed length on success. -/
def tBranchMatchAt (cs : List Char) : Option Nat := do
  let (_, r1) ← matchBranchAlt cs
  let r2 ← wsPlus r1
  let r3 ←
    match ciDrop "increase".data r2 with
    | some r => some r
    | none => ciDrop "decrease".data r2
  some (cs.length - r3.length)

/-- Start offsets of all non-overlapping transformer branch matches. -/
def tAllBranchStarts : Nat → List Char → Nat → List Nat
  | 0, _, _ => []
  | _ + 1, [], _ => []
  | fu + 1, c :: rest, off =>
    match tBranchMatchAt (c :: rest) with
    | some len =>
      let step := max len 1
      off :: tAllBranchStarts fu ((c :: rest).drop step) (off + step)
    | none => tAllBranchStarts fu rest (off + 1)

/-- The transformer's section spans: match starts with the text length
appended, paired consecutively (no sections when there is no match). -/
def tSections (cs : List Char) : List (Nat × Nat) :=
  pairUp (tAllBranchStarts (cs.length + 1) cs 0) cs.length

/-- Existence of `words\s+(?:INCREASE|DECREASE)` at the front. -/
def branchSectionAt (words : List String) (cs : List Char) : Bool :=
  (do
    let r1 ← matchPhrase words cs
    let r2 ← wsPlus r1
    match ciDrop "increase".data r2 with
    | some r => some r
    | none => ciDrop "decrease".data r2).isSome

/-- `CSVTransformer._extract_branch`: six independent searches over the
1000 characters before the position, probed in fixed order. -/
def tExtractBranch (cs : List Char) (pos : Nat) : String :=
  let before := (cs.take pos).drop (pos - 1000)
  if existsAt (branchSectionAt ["army"]) before then "Army"
  else if existsAt (branchSectionAt ["navy"]) before then "Navy"
  else if existsAt (branchSectionAt ["air", "force"]) before then "Air Force"
  else if existsAt (branchSectionAt ["defense-wide"]) before then "Defense-Wide"
  else if existsAt (branchSectionAt ["marine", "corps"]) before then "Marines"
  else if existsAt (branchSectionAt ["coast", "guard"]) before then "Coast Guard"
  else ""

/-- `Procurement(?!,)` (ci) at the front: not followed by a comma. -/
def tProcurementAt (cs : List Char) : Bool :=
  match ciDrop "procurement".data cs with
  | some r =>
    match r with
    | ',' :: _ => false
    | _ => true
  | none => false

/-- `CSVTransformer._extract_appropriation_category` called at position
0: the first 500 characters of the section are probed in fixed order. -/
def tExtractCategory (snippet : List Char) : String :=
  let nearby := snippet.take 500
  if existsAt omAt nearby then "Operation and Maintenance"
  else if existsAt weaponsAt nearby then "Weapons Procurement"
  else if existsAt missileAt nearby then "Missile Procurement"
  else if existsAt tProcurementAt nearby then "Procurement"
  else if existsAt (fun s => ciStartsWith "rdte" s) nearby ||
      existsResearchThen "development".data nearby then "RDTE"
  else ""

/-- The candidate row a `parse_ocr_text` section builds
(src/csv_transformer.py lines 218-238).  `_extract_fiscal_years` is
line-for-line the same code as `find_fys`. -/
def tBuildRow (cs : List Char) (file : String) (se : Nat × Nat) : RcpRow :=
  let snippet := (cs.drop se.1).take (se.2 - se.1)
  let fys := find_fys (String.mk snippet)
  let ba := firstMatch matchBAAt (snippet.take 300)
  let amounts := rcpAmounts snippet
  let expl :=
    match firstMatch (matchExplAt rcpStops) (snippet.take 2000) with
    | some e => pyNormWs (pyStrip (String.mk e))
    | none => ""
  { appropriation_category := tExtractCategory snippet, appropriation_code := "",
    appropriation_activity := "", branch := tExtractBranch cs se.1,
    fiscal_year_start := fys.1, fiscal_year_end := fys.2,
    budget_activity_number :=
      match ba with | some p => String.mk p.1 | none => "",
    budget_activity_title :=
      match ba with | some p => pyStrip (String.mk p.2) | none => "",
    pem := match firstPem none snippet with | some g => String.mk g | none => "",
    budget_title :=
      match capLineFirst none snippet with | some g => String.mk g | none => "",
    program_base_congressional :=
      match amounts.get? 0 with | some a => String.mk a | none => "-",
    program_base_dod :=
      match amounts.get? 1 with | some a => String.mk a | none => "-",
    reprogramming_amount :=
      match amounts.get? 2 with | some a => String.mk a | none => "-",
    revised_program_total :=
      match amounts.get? 3 with | some a => String.mk a | none => "-",
    explanation := if expl = "" then "-" else expl,
    file := file }

/-- One iteration of the section loop of `parse_ocr_text`: `none` is a
discarded candidate (`_extract_branch` cannot raise, so there is no
exception path here). -/
def tSectionRow (cs : List Char) (file : String) (se : Nat × Nat) : Option RcpRow :=
  let snippet := (cs.drop se.1).take (se.2 - se.1)
  if tExtractBranch cs se.1 ≠ "" ∨ tExtractCategory snippet ≠ "" ∨
      rcpAmounts snippet ≠ [] then
    some (tBuildRow cs file se)
  else none

/-- `CSVTransformer.parse_ocr_text`. -/
def parse_ocr_text (ocr_text source_file : String) : List RcpRow :=
  (tSections ocr_text.data).filterMap (tSectionRow ocr_text.data source_file)

/-- The transformer's "found something" signal:
`if branch or category or amounts`. -/
def tSectionSignal (cs : List Char) (se : Nat × Nat) : Bool :=
  let snippet := (cs.drop se.1).take (se.2 - se.1)
  decide (tExtractBranch cs se.1 ≠ "") ||
    decide (tExtractCategory snippet ≠ "") || decide (rcpAmounts snippet ≠ [])

theorem sectionRow_some_signal (cs : List Char) (file : String)
    (se : Nat × Nat) (row : RcpRow)
    (h : sectionRow cs file se = some (some row)) :
    sectionSignal cs se = true := by
  unfold sectionRow at h
  unfold sectionSignal
  simp only [ne_eq] at h
  simp only [ne_eq]
  split at h
  · exact absurd h (by simp)
  · rename_i branch heq
    rw [heq]
    simp only [Option.some.injEq] at h
    split at h
    · rename_i hcond
      rcases hcond with hb | hc | ha
      · simp [hb]
      · simp [hc]
      · simp [ha]
    · exact absurd h (by simp)

theorem sectionRow_none_signal (cs : List Char) (file : String)
    (se : Nat × Nat) (h : sectionRow cs file se = some none) :
    sectionSignal cs se = false := by
  unfold sectionRow at h
  unfold sectionSignal
  simp only [ne_eq] at h
  simp only [ne_eq]
  split at h
  · exact absurd h (by simp)
  · rename_i branch heq
    rw [heq]
    simp only [Option.some.injEq] at h
    split at h
    · exact absurd h (by simp)
    · rename_i hcond
      push_neg at hcond
      obtain ⟨hb, hc, ha⟩ := hcond
      simp [hb, hc, ha]

theorem optMapAll_sectionRow_length (cs : List Char) (file : String) :
    ∀ (secs : List (Nat × Nat)) (l : List (Option RcpRow)),
      optMapAll (sectionRow cs file) secs = some l →
      (l.filterMap id).length = (secs.filter (sectionSignal cs)).length := by
  intro secs
  induction secs with
  | nil =>
    intro l h
    simp only [optMapAll, Option.some.injEq] at h
    subst h
    simp
  | cons se rest ih =>
    intro l h
    simp only [optMapAll, Option.bind_eq_bind] at h
    cases hse : sectionRow cs file se with
    | none => rw [hse] at h; exact absurd h (by simp)
    | some b =>
      rw [hse] at h
      cases hrest : optMapAll (sectionRow cs file) rest with
      | none => rw [hrest] at h; exact absurd h (by simp)
      | some bs =>
        rw [hrest] at h
        simp only [Option.some_bind, Option.some.injEq] at h
        subst h
        cases b with
        | some row =>
          rw [List.filter_cons_of_pos
            (by simpa using sectionRow_some_signal cs file se row hse)]
          simp only [List.filterMap_cons, id, List.length_cons]
          rw [ih bs hrest]
        | none =>
          rw [List.filter_cons_of_neg
            (by simp [sectionRow_none_signal cs file se hse])]
          simp only [List.filterMap_cons, id]
          exact ih bs hrest

theorem tSectionRow_some_signal (cs : List Char) (file : String)
    (se : Nat × Nat) (row : RcpRow)
    (h : tSectionRow cs file se = some row) :
    tSectionSignal cs se = true := by
  unfold tSectionRow at h
  unfold tSectionSignal
  simp only [ne_eq] at h
  simp only [ne_eq]
  split at h
  · rename_i hcond
    rcases hcond with hb | hc | ha
    · simp [hb]
    · simp [hc]
    · simp [ha]
  · exact absurd h (by simp)

theorem tSectionRow_none_signal (cs : List Char) (file : String)
    (se : Nat × Nat) (h : tSectionRow cs file se = none) :
    tSectionSignal cs se = false := by
  unfold tSectionRow at h
  unfold tSectionSignal
  simp only [ne_eq] at h
  simp only [ne_eq]
  split at h
  · exact absurd h (by simp)
  · rename_i hcond
    push_neg at hcond
    obtain ⟨hb, hc, ha⟩ := hcond
    simp [hb, hc, ha]

theorem filterMap_tSectionRow_length (cs : List Char) (file : String) :
    ∀ secs : List (Nat × Nat),
      (secs.filterMap (tSectionRow cs file)).length =
        (secs.filter (tSectionSignal cs)).length := by
  intro secs
  induction secs with
  | nil => simp
  | cons se rest ih =>
    cases hse : tSectionRow cs file se with
    | some row =>
      rw [List.filterMap_cons_some hse,
        List.filter_cons_of_pos
          (by simpa using tSectionRow_some_signal cs file se row hse)]
      simp only [List.length_cons]
      rw [ih]
    | none =>
      rw [List.filterMap_cons_none hse,
        List.filter_cons_of_neg (by simp [tSectionRow_none_signal cs file se hse])]
      exact ih

/-- **C9** (spec §3 invariant, §4.5): in both record assemblers
(`rule_csv_parser.parse_text` and `CSVTransformer.parse_ocr_text`), a
section's candidate record is discarded if and only if it carries none
of branch, appropriation category and amounts; every candidate with at
least one of the three signals is emitted.  Conjuncts 1-2 and 4-5 state
the per-section iff; conjuncts 3 and 6 state that the emitted row list
consists exactly of the signal-bearing sections (one row each, in
order). -/
theorem c9_signal_filter :
    (∀ (cs : List Char) (file : String) (se : Nat × Nat) (row : RcpRow),
      sectionRow cs file se = some (some row) → sectionSignal cs se = true) ∧
    (∀ (cs : List Char) (file : String) (se : Nat × Nat),
      sectionRow cs file se = some none → sectionSignal cs se = false) ∧
    (∀ (t f : String) (rows : List RcpRow), parse_text t f = some rows →
      rows.length = ((extract_sections t.data).filter (sectionSignal t.data)).length) ∧
    (∀ (cs : List Char) (file : String) (se : Nat × Nat) (row : RcpRow),
      tSectionRow cs file se = some row → tSectionSignal cs se = true) ∧
    (∀ (cs : List Char) (file : String) (se : Nat × Nat),
      tSectionRow cs file se = none → tSectionSignal cs se = false) ∧
    (∀ (t f : String),
      (parse_ocr_text t f).length =
        ((tSections t.data).filter (tSectionSignal t.data)).length) := by
  refine ⟨sectionRow_some_signal, sectionRow_none_signal, ?_,
    tSectionRow_some_signal, tSectionRow_none_signal, ?_⟩
  · intro t f rows h
    simp only [parse_text] at h
    cases hm : optMapAll (sectionRow t.data f) (extract_sections t.data) with
    | none => rw [hm] at h; exact absurd h (by simp)
    | some l =>
      rw [hm] at h
      simp only [Option.map_some', Option.some.injEq] at h
      subst h
      exact optMapAll_sectionRow_length t.data f _ l hm
  · intro t f
    exact filterMap_tSectionRow_length t.data f _

/-- A document with no branch marker but a category signal, for the C9
witness. -/
def c9Text : String := "Operation and Maintenance 05/05"

set_option maxRecDepth 40000 in
/-- Witness for C9: on `c9Text`, `parse_text` completes without the
exception path and emits exactly the signal-bearing sections (the single
whole-text section, whose candidate carries a category and amounts). -/
theorem c9_witness :
    parse_text c9Text "f.txt" = some
      [{ appropriation_category := "Operation and Maintenance",
         appropriation_code := "", appropriation_activity := "",
         branch := "", fiscal_year_start := "", fiscal_year_end := "",
         budget_activity_number := "", budget_activity_title := "",
         pem := "", budget_title := "",
         program_base_congressional := "05", program_base_dod := "05",
         reprogramming_amount := "-", revised_program_total := "-",
         explanation := "-", file := "f.txt" }] ∧
    (1 : Nat) =
      ((extract_sections c9Text.data).filter (sectionSignal c9Text.data)).length := by
  refine ⟨by decide, ?_⟩
  have := c9_signal_filter.2.2.1 c9Text "f.txt"
    [{ appropriation_category := "Operation and Maintenance",
       appropriation_code := "", appropriation_activity := "",
       branch := "", fiscal_year_start := "", fiscal_year_end := "",
       budget_activity_number := "", budget_activity_title := "",
       pem := "", budget_title := "",
       program_base_congressional := "05", program_base_dod := "05",
       reprogramming_amount := "-", revised_program_total := "-",
       explanation := "-", file := "f.txt" }] (by decide)
  simpa using this

end Comptroller
